import Mathlib

/-!
Verification of the jonathan_converter pipeline against its specification.

The development is a shallow embedding of the two Rust source files.
Bytes are modelled as Nat (the code operates on u8 values), strings as
lists of characters, file-system paths as lists of path components
(each component a list of characters; paths with no file-name component,
such as a root or the current directory, are the empty list), and
fallible operations return Except values.  The external pcx parser and
png encoder crates are not repository code; the parser is abstracted as
a function parameter producing a PcxStream, and the png encoding stage
is outside the modelled pipeline.
-/

/-! ## Byte-Decoder: convert_txt in lib.rs (shifted range 11 to 136) -/

/-- One byte of the proprietary codepage table, lib.rs variant.  The
match arms appear in source order; the fall-through arm reports the
offending byte value, modelling IllegalCharacterError(value).  The
platform line-ending constant LINE_ENDING is the parameter lineEnding. -/
def decode_byte_lib (lineEnding : List Char) (c : Nat) : Except Nat (List Char) :=
  if c = 10 then .ok lineEnding
  else if 11 ≤ c ∧ c ≤ 136 then .ok [Char.ofNat (c - 10)]
  else if c = 139 then .ok ['ü']
  else if c = 164 then .ok ['Ü']
  else if c = 142 then .ok ['ä']
  else if c = 152 then .ok ['Ä']
  else if c = 158 then .ok ['ö']
  else if c = 163 then .ok ['Ö']
  else if c = 183 then .ok ['ô']
  else if c = 235 then .ok ['ß']
  else .error c

/-- The decode loop of convert_txt in lib.rs: bytes are decoded left to
right, the first illegal byte aborts the whole decode. -/
def decode_bytes_lib (lineEnding : List Char) : List Nat → Except Nat (List Char)
  | [] => .ok []
  | c :: cs =>
    match decode_byte_lib lineEnding c with
    | .error v => .error v
    | .ok s =>
      match decode_bytes_lib lineEnding cs with
      | .error v => .error v
      | .ok rest => .ok (s ++ rest)

/-- The pure string-producing part of convert_txt in lib.rs: a
byte-order mark is pushed first, then every input byte is decoded. -/
def convert_txt_lib (lineEnding : List Char) (contents : List Nat) : Except Nat (List Char) :=
  match decode_bytes_lib lineEnding contents with
  | .error v => .error v
  | .ok s => .ok (Char.ofNat 0xfeff :: s)

/-! ## Byte-Decoder: convert_txt in main.rs (shifted range 11 to 137) -/

/-- One byte of the proprietary codepage table, main.rs variant.  It
differs from the lib.rs variant only in the shifted range, which is
11 to 137 inclusive here. -/
def decode_byte_main (lineEnding : List Char) (c : Nat) : Except Nat (List Char) :=
  if c = 10 then .ok lineEnding
  else if 11 ≤ c ∧ c ≤ 137 then .ok [Char.ofNat (c - 10)]
  else if c = 139 then .ok ['ü']
  else if c = 164 then .ok ['Ü']
  else if c = 142 then .ok ['ä']
  else if c = 152 then .ok ['Ä']
  else if c = 158 then .ok ['ö']
  else if c = 163 then .ok ['Ö']
  else if c = 183 then .ok ['ô']
  else if c = 235 then .ok ['ß']
  else .error c

/-- The decode loop of convert_txt in main.rs. -/
def decode_bytes_main (lineEnding : List Char) : List Nat → Except Nat (List Char)
  | [] => .ok []
  | c :: cs =>
    match decode_byte_main lineEnding c with
    | .error v => .error v
    | .ok s =>
      match decode_bytes_main lineEnding cs with
      | .error v => .error v
      | .ok rest => .ok (s ++ rest)

/-- The pure string-producing part of convert_txt in main.rs. -/
def convert_txt_main (lineEnding : List Char) (contents : List Nat) : Except Nat (List Char) :=
  match decode_bytes_main lineEnding contents with
  | .error v => .error v
  | .ok s => .ok (Char.ofNat 0xfeff :: s)

/-- A byte hits the fall-through arm of the lib.rs match, listed in
source arm order. -/
def illegal_byte_lib (c : Nat) : Bool :=
  decide (¬ (c = 10 ∨ (11 ≤ c ∧ c ≤ 136) ∨ c = 139 ∨ c = 164 ∨ c = 142 ∨
    c = 152 ∨ c = 158 ∨ c = 163 ∨ c = 183 ∨ c = 235))

/-- The glyphs produced for one legal byte by the lib.rs decoder. -/
def byte_image_lib (lineEnding : List Char) (c : Nat) : List Char :=
  match decode_byte_lib lineEnding c with
  | .ok s => s
  | .error _ => []

/-! ### Helper lemmas about the byte decoders -/

theorem decode_byte_lib_eq_error (lineEnding : List Char) (c : Nat)
    (h : illegal_byte_lib c = true) :
    decode_byte_lib lineEnding c = .error c := by
  unfold illegal_byte_lib at h
  rw [decide_eq_true_eq] at h
  push_neg at h
  obtain ⟨h1, h2, h3, h4, h5, h6, h7, h8, h9, h10⟩ := h
  unfold decode_byte_lib
  rw [if_neg h1, if_neg (show ¬ (11 ≤ c ∧ c ≤ 136) by omega), if_neg h3,
    if_neg h4, if_neg h5, if_neg h6, if_neg h7, if_neg h8, if_neg h9, if_neg h10]

theorem decode_byte_lib_error_illegal (lineEnding : List Char) (c v : Nat)
    (h : decode_byte_lib lineEnding c = .error v) :
    illegal_byte_lib c = true ∧ v = c := by
  have hill : illegal_byte_lib c = true := by
    cases hi : illegal_byte_lib c with
    | true => rfl
    | false =>
      exfalso
      unfold illegal_byte_lib at hi
      rw [decide_eq_false_iff_not, not_not] at hi
      rcases hi with h1 | h2 | h3 | h4 | h5 | h6 | h7 | h8 | h9 | h10
      · subst h1; simp [decode_byte_lib] at h
      · unfold decode_byte_lib at h
        rw [if_neg (by omega), if_pos h2] at h
        exact Except.noConfusion h
      · subst h3; simp [decode_byte_lib] at h
      · subst h4; simp [decode_byte_lib] at h
      · subst h5; simp [decode_byte_lib] at h
      · subst h6; simp [decode_byte_lib] at h
      · subst h7; simp [decode_byte_lib] at h
      · subst h8; simp [decode_byte_lib] at h
      · subst h9; simp [decode_byte_lib] at h
      · subst h10; simp [decode_byte_lib] at h
  refine ⟨hill, ?_⟩
  rw [decode_byte_lib_eq_error lineEnding c hill] at h
  injection h with h'
  exact h'.symm

theorem decode_byte_lib_legal (lineEnding : List Char) (c : Nat)
    (h : illegal_byte_lib c = false) :
    decode_byte_lib lineEnding c = .ok (byte_image_lib lineEnding c) := by
  unfold byte_image_lib
  cases hd : decode_byte_lib lineEnding c with
  | ok s => rfl
  | error v =>
    have := (decode_byte_lib_error_illegal lineEnding c v hd).1
    rw [h] at this
    exact absurd this (by simp)

theorem decode_bytes_lib_ok (lineEnding : List Char) (cs : List Nat)
    (h : ∀ b ∈ cs, illegal_byte_lib b = false) :
    decode_bytes_lib lineEnding cs = .ok (cs.flatMap (byte_image_lib lineEnding)) := by
  induction cs with
  | nil => rfl
  | cons c cs ih =>
    have hc := h c (List.mem_cons_self c cs)
    have hok := decode_byte_lib_legal lineEnding c hc
    have ihr := ih (fun b hb => h b (List.mem_cons_of_mem c hb))
    simp [decode_bytes_lib, hok, ihr]

theorem decode_bytes_lib_err (lineEnding : List Char) (cs : List Nat)
    (h : ∃ b ∈ cs, illegal_byte_lib b = true) :
    ∃ v ∈ cs, illegal_byte_lib v = true ∧
      decode_bytes_lib lineEnding cs = .error v := by
  induction cs with
  | nil => simp at h
  | cons c cs ih =>
    by_cases hc : illegal_byte_lib c = true
    · refine ⟨c, List.mem_cons_self c cs, hc, ?_⟩
      simp [decode_bytes_lib, decode_byte_lib_eq_error lineEnding c hc]
    · have hc' : illegal_byte_lib c = false := by
        cases hcc : illegal_byte_lib c
        · rfl
        · exact absurd hcc hc
      obtain ⟨b, hb, hbi⟩ := h
      rcases List.mem_cons.mp hb with rfl | hb'
      · exact absurd hbi hc
      · obtain ⟨v, hv, hvi, hde⟩ := ih ⟨b, hb', hbi⟩
        refine ⟨v, List.mem_cons_of_mem c hv, hvi, ?_⟩
        simp [decode_bytes_lib, decode_byte_lib_legal lineEnding c hc', hde]

theorem decode_byte_lib_eq_main (lineEnding : List Char) (c : Nat) (h : c ≠ 137) :
    decode_byte_lib lineEnding c = decode_byte_main lineEnding c := by
  unfold decode_byte_lib decode_byte_main
  by_cases h1 : c = 10
  · rw [if_pos h1, if_pos h1]
  · rw [if_neg h1, if_neg h1]
    by_cases h2 : 11 ≤ c ∧ c ≤ 136
    · rw [if_pos h2, if_pos (show 11 ≤ c ∧ c ≤ 137 by omega)]
    · rw [if_neg h2, if_neg (show ¬ (11 ≤ c ∧ c ≤ 137) by omega)]

theorem decode_bytes_lib_eq_main (lineEnding : List Char) (cs : List Nat)
    (h : 137 ∉ cs) :
    decode_bytes_lib lineEnding cs = decode_bytes_main lineEnding cs := by
  induction cs with
  | nil => rfl
  | cons c cs ih =>
    have hc : c ≠ 137 := fun hc => h (hc ▸ List.mem_cons_self c cs)
    have hcs : 137 ∉ cs := fun hm => h (List.mem_cons_of_mem c hm)
    simp only [decode_bytes_lib, decode_bytes_main,
      decode_byte_lib_eq_main lineEnding c hc, ih hcs]

/-! ## UTF-8 output and the file-writing wrapper of convert_txt -/

/-- Standard UTF-8 encoding of one character. -/
def utf8_encode_char (c : Char) : List Nat :=
  let n := c.toNat
  if n < 0x80 then [n]
  else if n < 0x800 then [0xc0 + n / 64, 0x80 + n % 64]
  else if n < 0x10000 then [0xe0 + n / 4096, 0x80 + n / 64 % 64, 0x80 + n % 64]
  else [0xf0 + n / 262144, 0x80 + n / 4096 % 64, 0x80 + n / 64 % 64, 0x80 + n % 64]

/-- Standard UTF-8 encoding of a string (list of characters). -/
def utf8_encode (s : List Char) : List Nat :=
  s.flatMap utf8_encode_char

/-- One file-system effect performed by a conversion call. -/
inductive FsOp where
  | createOutput : List (List Char) → FsOp
  | writeOutput : List (List Char) → List Nat → FsOp
deriving DecidableEq

/-- The full convert_txt of lib.rs, as the list of file-system effects
performed on the output path together with the outcome.  In the source
the output file is created with create_output_file only after the whole
input buffer has been decoded, and then the string bytes are written;
when decoding fails the function returns before touching the output
path, so the effect list is empty. -/
def convert_txt_io (lineEnding : List Char) (outputFilename : List (List Char))
    (contents : List Nat) : List FsOp × Except Nat Unit :=
  match convert_txt_lib lineEnding contents with
  | .error v => ([], .error v)
  | .ok s =>
    ([.createOutput outputFilename, .writeOutput outputFilename (utf8_encode s)], .ok ())

/-! ## File paths

A path is a list of normal components; a path without a file-name
component (a root, or the current directory) is the empty list.  The
component operations mirror the Rust Path methods: the stem and the
extension of a file name are obtained by splitting it at its last dot,
where a split with nothing before the dot counts as no split at all. -/

/-- Splits a file name at its last dot into the parts before and after
that dot; none when the name contains no dot. -/
def rsplitDot : List Char → Option (List Char × List Char)
  | [] => none
  | c :: rest =>
    match rsplitDot rest with
    | some (b, a) => some (c :: b, a)
    | none => if c = '.' then some ([], rest) else none

/-- Rust Path.file_stem on one file-name component: everything before
the last dot, or the whole name when there is no dot or the only dot is
the leading character. -/
def file_stem (name : List Char) : List Char :=
  match rsplitDot name with
  | none => name
  | some (b, _) => if b = [] then name else b

/-- Rust Path.extension on one file-name component: everything after
the last dot, or none when there is no dot or the only dot is the
leading character. -/
def extension (name : List Char) : Option (List Char) :=
  match rsplitDot name with
  | none => none
  | some (b, a) => if b = [] then none else some a

/-- Rust PathBuf.set_extension applied to a file-name component: the
current extension, if any, is replaced by the given one; an empty new
extension just removes the old one. -/
def set_extension (name : List Char) (ext : List Char) : List Char :=
  if ext = [] then file_stem name else file_stem name ++ '.' :: ext

/-- Failure of the file-pair resolver, modelling the bail when the
input path has no stem. -/
inductive PathError where
  | noStem
deriving DecidableEq

/-- to_output_filename from lib.rs: take the stem of the input path
(bailing when there is none), push the output directory, push the stem
as a new file name, and set its extension to the output extension. -/
def to_output_filename (inputPath : List (List Char)) (outputPath : List (List Char))
    (outputExtension : List Char) : Except PathError (List (List Char)) :=
  match inputPath.getLast? with
  | none => .error .noStem
  | some name => .ok (outputPath ++ [set_extension (file_stem name) outputExtension])

/-! ### Helper lemmas about file names -/

theorem rsplitDot_eq_none (s : List Char) (h : '.' ∉ s) : rsplitDot s = none := by
  induction s with
  | nil => rfl
  | cons c rest ih =>
    have hc : c ≠ '.' := fun hc => h (hc ▸ List.mem_cons_self c rest)
    have hrest : '.' ∉ rest := fun hm => h (List.mem_cons_of_mem c hm)
    simp [rsplitDot, ih hrest, hc]

theorem rsplitDot_append (s t : List Char) (ht : '.' ∉ t) :
    rsplitDot (s ++ '.' :: t) = some (s, t) := by
  induction s with
  | nil => simp [rsplitDot, rsplitDot_eq_none t ht]
  | cons c rest ih => simp [rsplitDot, ih]

theorem file_stem_no_dot (name : List Char) (h : '.' ∉ name) :
    file_stem name = name := by
  simp [file_stem, rsplitDot_eq_none name h]

theorem file_stem_append_ext (stem ext : List Char) (hs : stem ≠ [])
    (he : '.' ∉ ext) :
    file_stem (stem ++ '.' :: ext) = stem := by
  simp [file_stem, rsplitDot_append stem ext he, hs]

theorem extension_append_ext (stem ext : List Char) (hs : stem ≠ [])
    (he : '.' ∉ ext) :
    extension (stem ++ '.' :: ext) = some ext := by
  simp [extension, rsplitDot_append stem ext he, hs]

theorem file_stem_ne_nil (name : List Char) (h : name ≠ []) :
    file_stem name ≠ [] := by
  unfold file_stem
  cases hr : rsplitDot name with
  | none => exact h
  | some p =>
    by_cases hb : p.1 = []
    · simp only [hr, hb, if_true]
      exact h
    · simp [hr, hb]

/-! ## Directory Scanner and Batch Executor (convert_dir in lib.rs) -/

/-- One entry returned by reading the input directory: its full path
and whether it is a regular file. -/
structure DirEntry where
  path : List (List Char)
  isFile : Bool
deriving DecidableEq

/-- ASCII model of Rust str.to_uppercase. -/
def to_uppercase (s : List Char) : List Char :=
  s.map Char.toUpper

/-- is_file_with_extension from lib.rs: a regular file whose extension,
upper-cased, equals the given (already upper-case) extension. -/
def is_file_with_extension (e : DirEntry) (extensionUpper : List Char) : Bool :=
  e.isFile &&
    (match e.path.getLast? with
     | none => false
     | some name =>
       match extension name with
       | none => false
       | some ext => decide (to_uppercase ext = extensionUpper))

/-- The pair-collection loop of convert_dir in lib.rs: every entry that
is a regular file with a matching extension is paired with its resolved
output file name; a resolution failure aborts the whole job. -/
def files_to_convert (entries : List DirEntry) (inputExtension : List Char)
    (outputPath : List (List Char)) (outputExtension : List Char) :
    Except PathError (List (List (List Char) × List (List Char))) :=
  match entries with
  | [] => .ok []
  | e :: rest =>
    if is_file_with_extension e inputExtension then
      match to_output_filename e.path outputPath outputExtension with
      | .error err => .error err
      | .ok outName =>
        match files_to_convert rest inputExtension outputPath outputExtension with
        | .error err => .error err
        | .ok pairs => .ok ((e.path, outName) :: pairs)
    else files_to_convert rest inputExtension outputPath outputExtension

/-- The console report produced for one file pair: its input path, its
output path, and the outcome of its conversion call. -/
structure ConversionReport (ε : Type) where
  input : List (List Char)
  output : List (List Char)
  result : Except ε Unit

/-- Fatal failure of one batch job: the input directory could not be
read, or an output file name could not be resolved. -/
inductive JobError where
  | scanError : JobError
  | pairError : PathError → JobError
deriving DecidableEq

/-- convert_dir from lib.rs.  The read_dir outcome is a parameter (it
is file-system input); a scan failure or a pair-resolution failure is
fatal, and otherwise every pair is handed to the conversion function,
whose per-file outcome is recorded in a report and never escalated:
the job returns success regardless of the individual outcomes. -/
def convert_dir {ε : Type} (scanResult : Except Unit (List DirEntry))
    (inputExtension : List Char) (outputPath : List (List Char))
    (outputExtension : List Char)
    (conversionFn : List (List Char) → List (List Char) → Except ε Unit) :
    Except JobError (List (ConversionReport ε)) :=
  match scanResult with
  | .error _ => .error .scanError
  | .ok entries =>
    match files_to_convert entries inputExtension outputPath outputExtension with
    | .error e => .error (.pairError e)
    | .ok pairs => .ok (pairs.map (fun p => ⟨p.1, p.2, conversionFn p.1 p.2⟩))

/-! ## Palette-Image Decoder (convert_pcx) -/

/-- Failures of convert_pcx: the buffer is shorter than four bytes, the
pcx stream cannot be parsed or read, or the stream is not a 256 color
paletted image. -/
inductive PcxError where
  | tooSmall
  | decodeError
  | notPaletted
deriving DecidableEq

/-- Abstraction of a parsed pcx::Reader: the paletted flag, the length
of the embedded palette if any, the dimensions, the per-row pixel reads
and the palette read, each of which may fail inside the external
library. -/
structure PcxStream where
  isPaletted : Bool
  paletteLength : Option Nat
  width : Nat
  height : Nat
  rowData : Nat → Except Unit (List Nat)
  paletteData : Except Unit (List Nat)

/-- A fully populated decoded image. -/
structure PaletteImage where
  width : Nat
  height : Nat
  pixels : List Nat
  palette : List Nat

/-- The scanline loop of convert_pcx: the listed rows are read in
order into one row-major buffer; any row failure is fatal. -/
def read_rows (s : PcxStream) : List Nat → Except PcxError (List Nat)
  | [] => .ok []
  | y :: ys =>
    match s.rowData y with
    | .error _ => .error .decodeError
    | .ok row =>
      match read_rows s ys with
      | .error e => .error e
      | .ok rest => .ok (row ++ rest)

/-- The part of convert_pcx that runs after the stream has parsed: the
256 color palette check, the scanline loop and the palette read. -/
def convert_pcx_parsed (s : PcxStream) : Except PcxError PaletteImage :=
  if s.isPaletted = false ∨ s.paletteLength.getD 0 ≠ 256 then .error .notPaletted
  else
    match read_rows s (List.range s.height) with
    | .error e => .error e
    | .ok pixels =>
      match s.paletteData with
      | .error _ => .error .decodeError
      | .ok pal => .ok ⟨s.width, s.height, pixels, pal⟩

/-- convert_pcx from lib.rs up to the decoded PaletteImage, with the
external pcx parser abstracted as the parse parameter.  A buffer of
fewer than four bytes is rejected as too small; otherwise its first
four bytes are overwritten with 0x0a, 0x05, 0x01, 0x08 and the patched
buffer is parsed; a parse failure is a decode error. -/
def convert_pcx (parse : List Nat → Except Unit PcxStream) (contents : List Nat) :
    Except PcxError PaletteImage :=
  if contents.length < 4 then .error .tooSmall
  else
    match parse (0x0a :: 0x05 :: 0x01 :: 0x08 :: contents.drop 4) with
    | .error _ => .error .decodeError
    | .ok s => convert_pcx_parsed s

/-! ## Pipeline Orchestrator (run) -/

/-- The two fixed jobs of the pipeline. -/
inductive JobTag where
  | graphics
  | texts
deriving DecidableEq

/-- run from lib.rs: the graphics job runs first and its failure is
propagated immediately, so the text job is attempted only when the
graphics job succeeded.  The two job outcomes are parameters; the
returned list records which jobs were attempted, in order. -/
def run {ε : Type} (gfxResult txtResult : Except ε Unit) :
    List JobTag × Except ε Unit :=
  match gfxResult with
  | .error e => ([JobTag.graphics], .error e)
  | .ok _ =>
    match txtResult with
    | .error e => ([JobTag.graphics, JobTag.texts], .error e)
    | .ok _ => ([JobTag.graphics, JobTag.texts], .ok ())

/-! ### Bridges between the source decode and the specification table -/

theorem flat_map_congr {α β : Type} (l : List α) (f g : α → List β)
    (h : ∀ a ∈ l, f a = g a) : l.flatMap f = l.flatMap g := by
  induction l with
  | nil => rfl
  | cons a l ih =>
    rw [List.flatMap_cons, List.flatMap_cons, h a (List.mem_cons_self a l),
      ih (fun b hb => h b (List.mem_cons_of_mem a hb))]

theorem illegal_byte_lib_iff (b : Nat) :
    illegal_byte_lib b = true ↔
      ¬ (b = 10 ∨ (11 ≤ b ∧ b ≤ 136) ∨ b = 139 ∨ b = 142 ∨ b = 152 ∨
        b = 158 ∨ b = 163 ∨ b = 164 ∨ b = 183 ∨ b = 235) := by
  unfold illegal_byte_lib
  rw [decide_eq_true_eq]
  constructor <;> intro h <;> omega

theorem byte_image_lib_eq_table (lineEnding : List Char) (b : Nat)
    (h : b = 10 ∨ (11 ≤ b ∧ b ≤ 136) ∨ b = 139 ∨ b = 142 ∨ b = 152 ∨
      b = 158 ∨ b = 163 ∨ b = 164 ∨ b = 183 ∨ b = 235) :
    byte_image_lib lineEnding b =
      (if b = 10 then lineEnding
       else if 11 ≤ b ∧ b ≤ 136 then [Char.ofNat (b - 10)]
       else if b = 139 then ['ü']
       else if b = 142 then ['ä']
       else if b = 152 then ['Ä']
       else if b = 158 then ['ö']
       else if b = 163 then ['Ö']
       else if b = 164 then ['Ü']
       else if b = 183 then ['ô']
       else ['ß']) := by
  rcases h with h | h | h | h | h | h | h | h | h | h
  · subst h; rfl
  · have hd : decode_byte_lib lineEnding b = .ok [Char.ofNat (b - 10)] := by
      unfold decode_byte_lib
      rw [if_neg (by omega), if_pos h]
    unfold byte_image_lib
    rw [hd, if_neg (by omega), if_pos h]
  · subst h; rfl
  · subst h; rfl
  · subst h; rfl
  · subst h; rfl
  · subst h; rfl
  · subst h; rfl
  · subst h; rfl
  · subst h; rfl

/-- Claim C1: on every input buffer the lib.rs text decoder either
succeeds with a byte-order mark followed by the byte-by-byte image of
the fixed mapping table (10 to the line ending, 11 to 136 to the code
point shifted down by 10, and the eight umlaut, circumflex and sharp-s
glyphs), or, when some byte is outside the table, the whole decode
fails with IllegalCharacterError carrying such a byte value. -/
theorem c1_text_decoder_matches_table (lineEnding : List Char) (cs : List Nat) :
    ((∀ b ∈ cs, b = 10 ∨ (11 ≤ b ∧ b ≤ 136) ∨ b = 139 ∨ b = 142 ∨ b = 152 ∨
        b = 158 ∨ b = 163 ∨ b = 164 ∨ b = 183 ∨ b = 235) →
      convert_txt_lib lineEnding cs =
        .ok (Char.ofNat 0xfeff :: cs.flatMap (fun b =>
          if b = 10 then lineEnding
          else if 11 ≤ b ∧ b ≤ 136 then [Char.ofNat (b - 10)]
          else if b = 139 then ['ü']
          else if b = 142 then ['ä']
          else if b = 152 then ['Ä']
          else if b = 158 then ['ö']
          else if b = 163 then ['Ö']
          else if b = 164 then ['Ü']
          else if b = 183 then ['ô']
          else ['ß'])))
  ∧ ((∃ b ∈ cs, ¬ (b = 10 ∨ (11 ≤ b ∧ b ≤ 136) ∨ b = 139 ∨ b = 142 ∨ b = 152 ∨
        b = 158 ∨ b = 163 ∨ b = 164 ∨ b = 183 ∨ b = 235)) →
      ∃ v ∈ cs, ¬ (v = 10 ∨ (11 ≤ v ∧ v ≤ 136) ∨ v = 139 ∨ v = 142 ∨ v = 152 ∨
        v = 158 ∨ v = 163 ∨ v = 164 ∨ v = 183 ∨ v = 235) ∧
        convert_txt_lib lineEnding cs = .error v) := by
  constructor
  · intro h
    have hleg : ∀ b ∈ cs, illegal_byte_lib b = false := by
      intro b hb
      cases hi : illegal_byte_lib b with
      | false => rfl
      | true => exact absurd (h b hb) ((illegal_byte_lib_iff b).mp hi)
    unfold convert_txt_lib
    rw [decode_bytes_lib_ok lineEnding cs hleg]
    rw [flat_map_congr cs _ _ (fun b hb => byte_image_lib_eq_table lineEnding b (h b hb))]
  · intro h
    have h' : ∃ b ∈ cs, illegal_byte_lib b = true := by
      obtain ⟨b, hb, hbn⟩ := h
      exact ⟨b, hb, (illegal_byte_lib_iff b).mpr hbn⟩
    obtain ⟨v, hv, hvi, hde⟩ := decode_bytes_lib_err lineEnding cs h'
    refine ⟨v, hv, (illegal_byte_lib_iff v).mp hvi, ?_⟩
    unfold convert_txt_lib
    rw [hde]

theorem c1_text_decoder_matches_table_witness :
    convert_txt_lib ['\n'] [10, 11, 136, 139, 142, 152, 158, 163, 164, 183, 235]
        = .ok (Char.ofNat 0xfeff ::
            ([10, 11, 136, 139, 142, 152, 158, 163, 164, 183, 235] : List Nat).flatMap (fun b =>
              if b = 10 then ['\n']
              else if 11 ≤ b ∧ b ≤ 136 then [Char.ofNat (b - 10)]
              else if b = 139 then ['ü']
              else if b = 142 then ['ä']
              else if b = 152 then ['Ä']
              else if b = 158 then ['ö']
              else if b = 163 then ['Ö']
              else if b = 164 then ['Ü']
              else if b = 183 then ['ô']
              else ['ß']))
  ∧ ∃ v ∈ ([255] : List Nat), ¬ (v = 10 ∨ (11 ≤ v ∧ v ≤ 136) ∨ v = 139 ∨ v = 142 ∨
      v = 152 ∨ v = 158 ∨ v = 163 ∨ v = 164 ∨ v = 183 ∨ v = 235) ∧
      convert_txt_lib ['\n'] [255] = .error v :=
  ⟨(c1_text_decoder_matches_table ['\n'] _).1 (by decide),
   (c1_text_decoder_matches_table ['\n'] _).2 ⟨255, by decide, by decide⟩⟩

/-- Claim C3, counterexample: on the buffer that holds the single byte
137 the lib.rs decoder fails with IllegalCharacterError(137) while the
main.rs decoder succeeds and maps it to code point 127, so the two
variants neither compute the same string nor consistently fail. -/
theorem c3_variants_disagree_on_137 :
    convert_txt_lib ['\n'] [137] = .error 137
  ∧ convert_txt_main ['\n'] [137] = .ok [Char.ofNat 0xfeff, Char.ofNat 127]
  ∧ convert_txt_lib ['\n'] [137] ≠ convert_txt_main ['\n'] [137] := by
  refine ⟨rfl, rfl, ?_⟩
  intro h
  rw [show convert_txt_lib ['\n'] [137] = .error 137 from rfl] at h
  rw [show convert_txt_main ['\n'] [137]
      = .ok [Char.ofNat 0xfeff, Char.ofNat 127] from rfl] at h
  exact Except.noConfusion h

/-- Claim C3, amended: the two text-decoder variants compute the same
decoded string on every input buffer that contains no byte 137; on the
byte 137 itself they disagree, the lib.rs variant failing and the
main.rs variant mapping it to code point 127. -/
theorem c3_variants_agree_without_137 (lineEnding : List Char) (cs : List Nat)
    (h : 137 ∉ cs) :
    convert_txt_lib lineEnding cs = convert_txt_main lineEnding cs := by
  unfold convert_txt_lib convert_txt_main
  rw [decode_bytes_lib_eq_main lineEnding cs h]

theorem c3_variants_agree_without_137_witness :
    convert_txt_lib ['\n'] [10, 20, 136] = convert_txt_main ['\n'] [10, 20, 136] :=
  c3_variants_agree_without_137 ['\n'] [10, 20, 136] (by decide)

/-- Claim C8: a text buffer containing a byte outside the supported
codepage makes convert_txt fail with IllegalCharacterError naming an
illegal byte of the buffer, and the conversion performs no file-system
effect at all: the output file is created only after the whole buffer
has decoded successfully. -/
theorem c8_illegal_byte_no_output (lineEnding : List Char)
    (outputFilename : List (List Char)) (contents : List Nat)
    (h : ∃ b ∈ contents, illegal_byte_lib b = true) :
    ∃ v ∈ contents, illegal_byte_lib v = true ∧
      convert_txt_io lineEnding outputFilename contents = ([], .error v) := by
  obtain ⟨v, hv, hvi, hde⟩ := decode_bytes_lib_err lineEnding contents h
  refine ⟨v, hv, hvi, ?_⟩
  unfold convert_txt_io convert_txt_lib
  rw [hde]

theorem c8_illegal_byte_no_output_witness :
    ∃ v ∈ ([255] : List Nat), illegal_byte_lib v = true ∧
      convert_txt_io ['\n'] [] [255] = ([], .error v) :=
  c8_illegal_byte_no_output ['\n'] [] [255] ⟨255, by decide, by decide⟩

/-- Claim C10: on the empty input buffer convert_txt succeeds, creates
the output file and writes exactly the three UTF-8 bytes of the
byte-order mark and nothing else. -/
theorem c10_empty_buffer_writes_bom (lineEnding : List Char)
    (outputFilename : List (List Char)) :
    convert_txt_io lineEnding outputFilename [] =
      ([.createOutput outputFilename, .writeOutput outputFilename [0xef, 0xbb, 0xbf]],
        .ok ()) := rfl

/-- Claim C5, counterexample: for the input file name a.b.c the stem is
a.b, but because set_extension replaces an existing extension the
resolved output file name is a.txt, whose stem a differs from the input
stem, so the output path is not output_directory / stem . extension. -/
theorem c5_dotted_stem_not_preserved :
    to_output_filename [['a', '.', 'b', '.', 'c']] [['O', 'U', 'T']] ['t', 'x', 't']
        = .ok [['O', 'U', 'T'], ['a', '.', 't', 'x', 't']]
  ∧ file_stem ['a', '.', 'b', '.', 'c'] = ['a', '.', 'b']
  ∧ file_stem ['a', '.', 't', 'x', 't'] ≠ file_stem ['a', '.', 'b', '.', 'c'] := by
  refine ⟨rfl, rfl, ?_⟩
  decide

/-- Claim C5, amended: to_output_filename is a pure deterministic
function that fails with NoStemError exactly when the input path has no
file-name component, and for every input path whose file stem contains
no dot it returns output_directory / stem . output_extension, the
output stem equal to the input stem and the output extension equal to
the (nonempty, dot-free) target extension; when the stem itself
contains a dot, set_extension also replaces the part of the stem after
its last dot. -/
theorem c5_output_filename_resolution (inputPath outputPath : List (List Char))
    (outputExtension : List Char) :
    (inputPath.getLast? = none →
      to_output_filename inputPath outputPath outputExtension = .error .noStem)
  ∧ (∀ name, inputPath.getLast? = some name → name ≠ [] →
      '.' ∉ file_stem name → outputExtension ≠ [] → '.' ∉ outputExtension →
      to_output_filename inputPath outputPath outputExtension
          = .ok (outputPath ++ [file_stem name ++ '.' :: outputExtension])
        ∧ file_stem (file_stem name ++ '.' :: outputExtension) = file_stem name
        ∧ extension (file_stem name ++ '.' :: outputExtension) = some outputExtension) := by
  constructor
  · intro h
    unfold to_output_filename
    rw [h]
  · intro name hname hne hstem hext hdot
    have hsne : file_stem name ≠ [] := file_stem_ne_nil name hne
    refine ⟨?_, file_stem_append_ext _ _ hsne hdot,
      extension_append_ext _ _ hsne hdot⟩
    unfold to_output_filename
    rw [hname]
    show Except.ok (outputPath ++ [set_extension (file_stem name) outputExtension])
      = Except.ok (outputPath ++ [file_stem name ++ '.' :: outputExtension])
    unfold set_extension
    rw [if_neg hext, file_stem_no_dot (file_stem name) hstem]

theorem c5_output_filename_resolution_witness :
    to_output_filename [] [['O']] ['t', 'x', 't'] = .error .noStem
  ∧ (to_output_filename [['f', 'o', 'o', '.', 't', 'c', 't']] [['O']] ['t', 'x', 't']
        = .ok ([['O']] ++ [file_stem ['f', 'o', 'o', '.', 't', 'c', 't'] ++ '.' :: ['t', 'x', 't']])
      ∧ file_stem (file_stem ['f', 'o', 'o', '.', 't', 'c', 't'] ++ '.' :: ['t', 'x', 't'])
          = file_stem ['f', 'o', 'o', '.', 't', 'c', 't']
      ∧ extension (file_stem ['f', 'o', 'o', '.', 't', 'c', 't'] ++ '.' :: ['t', 'x', 't'])
          = some ['t', 'x', 't']) :=
  ⟨(c5_output_filename_resolution [] [['O']] ['t', 'x', 't']).1 rfl,
   (c5_output_filename_resolution [['f', 'o', 'o', '.', 't', 'c', 't']] [['O']]
      ['t', 'x', 't']).2 ['f', 'o', 'o', '.', 't', 'c', 't'] rfl (by decide)
      (by decide) (by decide) (by decide)⟩

/-! ### Helper lemmas about the scanner -/

theorem is_file_with_extension_last (e : DirEntry) (extU : List Char)
    (h : is_file_with_extension e extU = true) :
    ∃ name, e.path.getLast? = some name := by
  cases hl : e.path.getLast? with
  | some name => exact ⟨name, rfl⟩
  | none =>
    exfalso
    unfold is_file_with_extension at h
    rw [hl] at h
    simp at h

theorem files_to_convert_eq (entries : List DirEntry) (inputExtension : List Char)
    (outputPath : List (List Char)) (outputExtension : List Char) :
    files_to_convert entries inputExtension outputPath outputExtension
      = .ok ((entries.filter (fun e => is_file_with_extension e inputExtension)).map
          (fun e => (e.path,
            outputPath ++
              [set_extension (file_stem (e.path.getLast?.getD [])) outputExtension]))) := by
  induction entries with
  | nil => rfl
  | cons e rest ih =>
    by_cases he : is_file_with_extension e inputExtension = true
    · obtain ⟨name, hname⟩ := is_file_with_extension_last e inputExtension he
      simp [files_to_convert, he, to_output_filename, hname, ih, List.filter_cons]
    · simp [files_to_convert, he, ih, List.filter_cons]

theorem is_file_with_extension_iff (e : DirEntry) (extU : List Char) :
    is_file_with_extension e extU = true ↔
      (e.isFile = true ∧ ∃ name ext₀, e.path.getLast? = some name ∧
        extension name = some ext₀ ∧ to_uppercase ext₀ = extU) := by
  unfold is_file_with_extension
  rw [Bool.and_eq_true]
  constructor
  · rintro ⟨hf, hm⟩
    refine ⟨hf, ?_⟩
    cases hl : e.path.getLast? with
    | none => simp [hl] at hm
    | some name =>
      cases hx : extension name with
      | none => simp [hl, hx] at hm
      | some ext₀ =>
        simp only [hl, hx, decide_eq_true_eq] at hm
        exact ⟨name, ext₀, rfl, hx, hm⟩
  · rintro ⟨hf, name, ext₀, hl, hx, hu⟩
    exact ⟨hf, by simp [hl, hx, hu]⟩

/-- Claim C6: the scanner never fails on well-formed entries and keeps
exactly the entries that are regular files whose extension, upper-cased,
equals the (upper-case) target extension; directories and extensionless
entries are skipped; the number of produced pairs equals the number of
matching entries, so it does not depend on the non-matching entries or
on the enumeration order. -/
theorem c6_scanner_pairs (entries : List DirEntry) (inputExtension : List Char)
    (outputPath : List (List Char)) (outputExtension : List Char)
    (hU : to_uppercase inputExtension = inputExtension) :
    ∃ pairs,
      files_to_convert entries inputExtension outputPath outputExtension = .ok pairs
      ∧ pairs.length = entries.countP (fun e => is_file_with_extension e inputExtension)
      ∧ pairs.map Prod.fst
          = (entries.filter (fun e => is_file_with_extension e inputExtension)).map
              DirEntry.path
      ∧ (∀ e : DirEntry, is_file_with_extension e inputExtension = true ↔
          (e.isFile = true ∧ ∃ name ext₀, e.path.getLast? = some name ∧
            extension name = some ext₀ ∧ to_uppercase ext₀ = to_uppercase inputExtension))
      ∧ (∀ entries₂ : List DirEntry, entries.Perm entries₂ →
          ∀ pairs₂,
            files_to_convert entries₂ inputExtension outputPath outputExtension = .ok pairs₂ →
              pairs₂.length = pairs.length) := by
  refine ⟨_, files_to_convert_eq entries inputExtension outputPath outputExtension,
    ?_, ?_, ?_, ?_⟩
  · rw [List.length_map,
      (List.countP_eq_length_filter (fun e => is_file_with_extension e inputExtension)
        entries).symm]
  · rw [List.map_map]
    rfl
  · intro e
    rw [hU]
    exact is_file_with_extension_iff e inputExtension
  · intro entries₂ hperm pairs₂ h₂
    rw [files_to_convert_eq entries₂ inputExtension outputPath outputExtension] at h₂
    injection h₂ with hh
    rw [← hh, List.length_map, List.length_map,
      (List.countP_eq_length_filter (fun e => is_file_with_extension e inputExtension)
        entries₂).symm,
      (List.countP_eq_length_filter (fun e => is_file_with_extension e inputExtension)
        entries).symm]
    exact (hperm.countP_eq (fun e => is_file_with_extension e inputExtension)).symm

theorem c6_scanner_pairs_witness :
    files_to_convert
        [⟨[['a', '.', 'p', 'c', 'x']], true⟩, ⟨[['d']], false⟩,
          ⟨[['b', '.', 't', 'x', 't']], true⟩]
        ['P', 'C', 'X'] [['O']] ['p', 'n', 'g']
      = .ok [([['a', '.', 'p', 'c', 'x']], [['O'], ['a', '.', 'p', 'n', 'g']])]
  ∧ ∃ pairs,
      files_to_convert
          [⟨[['a', '.', 'p', 'c', 'x']], true⟩, ⟨[['d']], false⟩,
            ⟨[['b', '.', 't', 'x', 't']], true⟩]
          ['P', 'C', 'X'] [['O']] ['p', 'n', 'g'] = .ok pairs
      ∧ pairs.length =
          ([⟨[['a', '.', 'p', 'c', 'x']], true⟩, ⟨[['d']], false⟩,
            ⟨[['b', '.', 't', 'x', 't']], true⟩] : List DirEntry).countP
            (fun e => is_file_with_extension e ['P', 'C', 'X'])
      ∧ pairs.map Prod.fst
          = (([⟨[['a', '.', 'p', 'c', 'x']], true⟩, ⟨[['d']], false⟩,
              ⟨[['b', '.', 't', 'x', 't']], true⟩] : List DirEntry).filter
              (fun e => is_file_with_extension e ['P', 'C', 'X'])).map DirEntry.path
      ∧ (∀ e : DirEntry, is_file_with_extension e ['P', 'C', 'X'] = true ↔
          (e.isFile = true ∧ ∃ name ext₀, e.path.getLast? = some name ∧
            extension name = some ext₀ ∧
            to_uppercase ext₀ = to_uppercase ['P', 'C', 'X']))
      ∧ (∀ entries₂ : List DirEntry,
          ([⟨[['a', '.', 'p', 'c', 'x']], true⟩, ⟨[['d']], false⟩,
            ⟨[['b', '.', 't', 'x', 't']], true⟩] : List DirEntry).Perm entries₂ →
          ∀ pairs₂,
            files_to_convert entries₂ ['P', 'C', 'X'] [['O']] ['p', 'n', 'g'] = .ok pairs₂ →
              pairs₂.length = pairs.length) :=
  ⟨rfl,
   c6_scanner_pairs
     [⟨[['a', '.', 'p', 'c', 'x']], true⟩, ⟨[['d']], false⟩,
       ⟨[['b', '.', 't', 'x', 't']], true⟩]
     ['P', 'C', 'X'] [['O']] ['p', 'n', 'g'] (by decide)⟩

/-- Claim C2: once the directory scan and the file-pair resolution have
succeeded, convert_dir returns success whatever the per-file conversion
outcomes are; every pair is processed and gets its own report carrying
its input path, its output path and its own outcome, so one failing
file does not prevent any other file from being processed. -/
theorem c2_batch_absorbs_failures {ε : Type} (scanResult : Except Unit (List DirEntry))
    (entries : List DirEntry) (inputExtension : List Char)
    (outputPath : List (List Char)) (outputExtension : List Char)
    (conversionFn : List (List Char) → List (List Char) → Except ε Unit)
    (pairs : List (List (List Char) × List (List Char)))
    (hscan : scanResult = .ok entries)
    (hpairs : files_to_convert entries inputExtension outputPath outputExtension = .ok pairs) :
    convert_dir scanResult inputExtension outputPath outputExtension conversionFn
        = .ok (pairs.map (fun p => ⟨p.1, p.2, conversionFn p.1 p.2⟩))
      ∧ ∀ p ∈ pairs,
          (⟨p.1, p.2, conversionFn p.1 p.2⟩ : ConversionReport ε)
            ∈ pairs.map (fun p => (⟨p.1, p.2, conversionFn p.1 p.2⟩ : ConversionReport ε)) := by
  constructor
  · rw [hscan]
    simp only [convert_dir, hpairs]
  · intro p hp
    exact List.mem_map_of_mem _ hp

theorem c2_batch_absorbs_failures_witness :
    convert_dir (Except.ok [⟨[['a', '.', 't', 'c', 't']], true⟩]) ['T', 'C', 'T'] [['O']]
        ['t', 'x', 't'] (fun _ _ => (Except.error () : Except Unit Unit))
      = .ok [⟨[['a', '.', 't', 'c', 't']], [['O'], ['a', '.', 't', 'x', 't']],
          Except.error ()⟩] := by
  have h := (c2_batch_absorbs_failures (Except.ok [⟨[['a', '.', 't', 'c', 't']], true⟩])
      [⟨[['a', '.', 't', 'c', 't']], true⟩] ['T', 'C', 'T'] [['O']] ['t', 'x', 't']
      (fun _ _ => (Except.error () : Except Unit Unit))
      [([['a', '.', 't', 'c', 't']], [['O'], ['a', '.', 't', 'x', 't']])] rfl rfl).1
  exact h

/-- Claim C4: convert_pcx fails with TooSmallError on buffers of fewer
than four bytes whatever the parser does, and otherwise the parser is
invoked on the buffer whose first four bytes have been overwritten with
0x0a, 0x05, 0x01, 0x08, so the result does not depend on the original
values of those four header bytes. -/
theorem c4_pcx_header_patch (contents : List Nat) :
    (contents.length < 4 →
      ∀ parse : List Nat → Except Unit PcxStream,
        convert_pcx parse contents = .error .tooSmall)
  ∧ (¬ contents.length < 4 →
      (∀ parse : List Nat → Except Unit PcxStream,
        convert_pcx parse contents
          = match parse (0x0a :: 0x05 :: 0x01 :: 0x08 :: contents.drop 4) with
            | .error _ => .error .decodeError
            | .ok s => convert_pcx_parsed s)
      ∧ ∀ (a b c d : Nat) (parse : List Nat → Except Unit PcxStream),
          convert_pcx parse (a :: b :: c :: d :: contents.drop 4)
            = convert_pcx parse contents) := by
  constructor
  · intro h parse
    unfold convert_pcx
    rw [if_pos h]
  · intro h
    constructor
    · intro parse
      unfold convert_pcx
      rw [if_neg h]
    · intro a b c d parse
      unfold convert_pcx
      rw [if_neg h,
        if_neg (show ¬ (a :: b :: c :: d :: contents.drop 4).length < 4 by
          simp only [List.length_cons]
          omega)]
      rfl

theorem c4_pcx_header_patch_witness :
    convert_pcx (fun _ => Except.error ()) [1, 2, 3] = .error .tooSmall
  ∧ convert_pcx (fun _ => Except.error ()) [9, 9, 9, 9]
      = (match (fun _ => (Except.error () : Except Unit PcxStream))
            (0x0a :: 0x05 :: 0x01 :: 0x08 :: ([9, 9, 9, 9] : List Nat).drop 4) with
         | .error _ => Except.error PcxError.decodeError
         | .ok s => convert_pcx_parsed s) :=
  ⟨(c4_pcx_header_patch [1, 2, 3]).1 (by decide) (fun _ => Except.error ()),
   ((c4_pcx_header_patch [9, 9, 9, 9]).2 (by decide)).1 (fun _ => Except.error ())⟩

/-- Claim C7: when the patched buffer parses to a stream, convert_pcx
fails with NotPalettedError whenever the stream is not flagged as
paletted or its embedded palette does not have exactly 256 entries, and
a PaletteImage is produced only when both conditions hold. -/
theorem c7_palette_check (parse : List Nat → Except Unit PcxStream)
    (contents : List Nat) (s : PcxStream)
    (hlen : ¬ contents.length < 4)
    (hp : parse (0x0a :: 0x05 :: 0x01 :: 0x08 :: contents.drop 4) = .ok s) :
    ((s.isPaletted = false ∨ s.paletteLength ≠ some 256) →
      convert_pcx parse contents = .error .notPaletted)
  ∧ (∀ img, convert_pcx parse contents = .ok img →
      s.isPaletted = true ∧ s.paletteLength = some 256) := by
  have hred : convert_pcx parse contents = convert_pcx_parsed s := by
    unfold convert_pcx
    rw [if_neg hlen, hp]
  constructor
  · intro h
    have hcond : s.isPaletted = false ∨ s.paletteLength.getD 0 ≠ 256 := by
      rcases h with h | h
      · exact Or.inl h
      · right
        cases hpl : s.paletteLength with
        | none => simp
        | some n =>
          rw [hpl] at h
          simpa using h
    rw [hred]
    unfold convert_pcx_parsed
    rw [if_pos hcond]
  · intro img himg
    rw [hred] at himg
    unfold convert_pcx_parsed at himg
    by_cases hcond : s.isPaletted = false ∨ s.paletteLength.getD 0 ≠ 256
    · rw [if_pos hcond] at himg
      exact Except.noConfusion himg
    · push_neg at hcond
      obtain ⟨h1, h2⟩ := hcond
      constructor
      · cases hb : s.isPaletted with
        | true => rfl
        | false => exact absurd hb h1
      · cases hpl : s.paletteLength with
        | none =>
          rw [hpl] at h2
          simp at h2
        | some n =>
          rw [hpl] at h2
          simp only [Option.getD_some] at h2
          rw [h2]

/-- A parsed stream that is not flagged as paletted, used to evaluate
the palette check on a concrete input. -/
def pcx_stream_not_paletted : PcxStream :=
  ⟨false, some 256, 1, 1, fun _ => .ok [0], .ok []⟩

theorem c7_palette_check_witness :
    convert_pcx (fun _ => Except.ok pcx_stream_not_paletted) [0, 0, 0, 0]
      = .error .notPaletted :=
  (c7_palette_check (fun _ => Except.ok pcx_stream_not_paletted) [0, 0, 0, 0]
    pcx_stream_not_paletted (by decide) rfl).1 (Or.inl rfl)

/-- Claim C9: run attempts the graphics job first; when the graphics
job fails the run aborts with that failure and the text job is never
attempted, and whenever the text job appears in the attempt list it
comes strictly after the graphics job. -/
theorem c9_run_sequencing {ε : Type} (gfxResult txtResult : Except ε Unit) :
    ((∃ e, gfxResult = .error e) →
      (run gfxResult txtResult).1 = [JobTag.graphics]
        ∧ JobTag.texts ∉ (run gfxResult txtResult).1
        ∧ (run gfxResult txtResult).2 = gfxResult)
  ∧ ((run gfxResult txtResult).1.head? = some JobTag.graphics)
  ∧ (JobTag.texts ∈ (run gfxResult txtResult).1 →
      (run gfxResult txtResult).1 = [JobTag.graphics, JobTag.texts]) := by
  cases gfxResult with
  | error e =>
    refine ⟨fun _ => ⟨rfl, ?_, rfl⟩, rfl, ?_⟩
    · simp [run]
    · intro hmem
      simp [run] at hmem
  | ok u =>
    cases txtResult with
    | error e₂ =>
      exact ⟨fun ⟨e, he⟩ => Except.noConfusion he, rfl, fun _ => rfl⟩
    | ok v =>
      exact ⟨fun ⟨e, he⟩ => Except.noConfusion he, rfl, fun _ => rfl⟩

theorem c9_run_sequencing_witness :
    ((run (Except.error 0) (Except.ok ()) : List JobTag × Except Nat Unit).1
        = [JobTag.graphics])
  ∧ JobTag.texts ∉ (run (Except.error 0) (Except.ok ()) : List JobTag × Except Nat Unit).1
  ∧ (run (Except.error 0) (Except.ok ())).2 = (Except.error 0 : Except Nat Unit) :=
  (c9_run_sequencing (Except.error 0) (Except.ok ())).1 ⟨0, rfl⟩
